import Mathlib

/-! Verification of the mellifera core interpreter (`src/mf.py`) against its
specification, by shallow embedding.  Mellifera Numbers are IEEE-754
doubles; finite doubles are dyadic rationals, so the finite case is
modeled exactly by `ℚ` with separate constructors for the IEEE specials.
(The sign of zero is not tracked; no property below depends on it.)
Containers share heap storage with use-counts and copy-on-write; that is
modeled by an explicit heap (`CowHeap`) with object identities, mirroring
the Python object graph of `mf.py`.
-/

namespace Mellifera

/-- A mellifera Number (`class Number`, src/mf.py:236): an IEEE-754 double,
modeled as an exact rational for the finite case plus the three specials. -/
inductive MNum where
  | fin (q : ℚ)
  | nan
  | inf
  | ninf
deriving DecidableEq

/-- Python `float.is_integer`, as used by `Number` code paths
(e.g. src/mf.py:2632): true exactly for integral finite doubles. -/
def MNum.isInteger : MNum → Bool
  | .fin q => q.den == 1
  | _ => false

/-- Python `float(x) == 0.0` on a Number's data: true for either signed
zero, false for everything else (including NaN). -/
def MNum.eqZero : MNum → Bool
  | .fin q => q == 0
  | _ => false

/-- Truncation toward zero of a rational, the integral quotient used by
C `fmod` and by Python `int(float)`.  (The sign test is phrased on the
numerator to keep the definition kernel-computable; `0 ≤ q.num ↔ 0 ≤ q`,
see `qtrunc_eq`.) -/
def qtrunc (q : ℚ) : ℤ := if 0 ≤ q.num then ⌊q⌋ else ⌈q⌉

/-- Exact value of C `fmod(a, b)` for finite `a`, `b` with `b ≠ 0`:
`a - b * trunc(a / b)` with the exact mathematical quotient.  `fmod` is
exact on IEEE doubles, so the rational model loses nothing. -/
def fmodQ (a b : ℚ) : ℚ := a - b * qtrunc (a / b)

/-- CPython `math.fmod` (Modules/mathmodule.c, `math_fmod_impl`): a NaN
operand produces NaN; `fmod(x, ±Inf) = x` for finite `x`; an infinite
dividend or a zero divisor makes the platform `fmod` return NaN from
non-NaN arguments, which CPython converts into `ValueError: math domain
error` instead of returning the NaN that C's `fmod` would produce. -/
def pyFmod : MNum → MNum → Except String MNum
  | .nan, _ => .ok .nan
  | _, .nan => .ok .nan
  | .fin a, .inf => .ok (.fin a)
  | .fin a, .ninf => .ok (.fin a)
  | .inf, _ => .error "math domain error"
  | .ninf, _ => .error "math domain error"
  | .fin a, .fin b =>
      if b = 0 then .error "math domain error" else .ok (.fin (fmodQ a b))

/-- Python float division on the operand shapes reachable from
`AstExpressionDiv.eval` after its zero-divisor check (src/mf.py:2281).
The finite/finite branch returns the exact quotient; true IEEE division
rounds it to the nearest double, a difference no claim below depends on
(the claims about `/` only concern the error/non-error split). -/
def pyDiv : MNum → MNum → MNum
  | .nan, _ => .nan
  | _, .nan => .nan
  | .inf, .inf => .nan
  | .inf, .ninf => .nan
  | .ninf, .inf => .nan
  | .ninf, .ninf => .nan
  | .inf, .fin b => if 0 ≤ b then .inf else .ninf
  | .ninf, .fin b => if 0 ≤ b then .ninf else .inf
  | .fin _, .inf => .fin 0
  | .fin _, .ninf => .fin 0
  | .fin a, .fin b => .fin (a / b)

/-- Mellifera runtime values, restricted to the scalar variants the claims
below exercise (`Null`, `Boolean`, `Number`, `String`; src/mf.py:181-349).
Containers are modeled separately by `CowHeap` and `MMap`. -/
inductive MValue where
  | null
  | bool (b : Bool)
  | num (n : MNum)
  | str (s : String)
deriving DecidableEq

/-- Model of `typename(value)` (src/mf.py:1609) on plain built-in scalar values. -/
def MValue.typename : MValue → String
  | .null => "null"
  | .bool _ => "boolean"
  | .num _ => "number"
  | .str _ => "string"

/-- Result of evaluating an expression: a Value, a mellifera `Error`
(src/mf.py:1577; its payload Value is carried, a `str` payload standing
for `String.new(message)`), or an uncaught host (Python) exception, which
unwinds through the whole evaluator and aborts the interpreter
(caught only by `main`, src/mf.py:5389). -/
inductive EvalOutcome where
  | val (v : MValue)
  | err (payload : MValue)
  | exn (msg : String)
deriving DecidableEq

/-- Model of `AstExpressionDiv.eval` (src/mf.py:2269-2283) applied to the already
evaluated operand values: type check, zero-divisor check, then Python
float division. -/
def divOp (lhs rhs : MValue) : EvalOutcome :=
  match lhs, rhs with
  | .num a, .num b =>
      if b.eqZero then .err (.str "division by zero")
      else .val (.num (pyDiv a b))
  | _, _ =>
      .err (.str ("attempted / operation with types `" ++ lhs.typename
        ++ "` and `" ++ rhs.typename ++ "`"))

/-- Model of `AstExpressionRem.eval` (src/mf.py:2293-2313) applied to the already
evaluated operand values: type check, zero-divisor check, then
`math.fmod`.  A `ValueError` raised by `math.fmod` is not caught anywhere
on the expression-evaluation path, so it surfaces as an interpreter
abort (`EvalOutcome.exn`). -/
def remOp (lhs rhs : MValue) : EvalOutcome :=
  match lhs, rhs with
  | .num a, .num b =>
      if b.eqZero then .err (.str "remainder with divisor zero")
      else
        match pyFmod a b with
        | .ok r => .val (.num r)
        | .error m => .exn m
  | _, _ =>
      .err (.str ("attempted % operation with types `" ++ lhs.typename
        ++ "` and `" ++ rhs.typename ++ "`"))

/-- Pointwise function update (used to model in-place writes to Python
objects identified by numeric ids). -/
def upd {α : Type} (f : Nat → α) (i : Nat) (a : α) : Nat → α :=
  fun j => if j = i then a else f j

/-- Heap model of mellifera container values.  A storage cell models a
`SharedVectorData` / `SharedMapData` / `SharedSetData` object
(src/mf.py:83-116): `cellData` is its contents (of storage type `σ`:
an element list for vectors, an entry list for maps, ...) and `cellUses`
its use-count.  An object id models a container `Value` (`Vector` /
`Map` / `Set` Python object); `objCell` is the storage cell the object
currently owns (`self.data`).  Ids at or above `cellNext` / `objNext`
are unallocated. -/
structure CowHeap (σ : Type) where
  cellData : Nat → σ
  cellUses : Nat → Nat
  cellNext : Nat
  objCell : Nat → Nat
  objNext : Nat

/-- The script-observable contents of container object `o`. -/
def CowHeap.obs {σ : Type} (h : CowHeap σ) (o : Nat) : σ :=
  h.cellData (h.objCell o)

/-- Model of `Vector.__copy__` (src/mf.py:467) followed by `Vector.__init__`
(src/mf.py:399-408), identically for `Map` and `Set`: copying a container
value allocates a fresh container object that adopts the *same* storage
cell and increments its use-count; no element is cloned.  Returns the new
object's id together with the updated heap. -/
def CowHeap.valueCopy {σ : Type} (h : CowHeap σ) (o : Nat) : Nat × CowHeap σ :=
  (h.objNext,
    { h with
      objCell := upd h.objCell h.objNext (h.objCell o)
      objNext := h.objNext + 1
      cellUses := upd h.cellUses (h.objCell o) (h.cellUses (h.objCell o) + 1) })

/-- Model of `Vector.cow` (src/mf.py:470-474), textually identical in `Map.cow`
(src/mf.py:558) and `Set.cow` (src/mf.py:657), and inlined in
`__setitem__` / `__delitem__`: if the storage is shared (`uses > 1`),
release it (`uses -= 1`), clone it into a fresh cell with use-count 1,
and repoint this object at the clone.  The clone copies every element
with its own copy rules, which is observationally the identity, so the
fresh cell receives the same contents. -/
def CowHeap.cow {σ : Type} (h : CowHeap σ) (o : Nat) : CowHeap σ :=
  if 1 < h.cellUses (h.objCell o) then
    { h with
      cellData := upd h.cellData h.cellNext (h.cellData (h.objCell o))
      cellUses := upd (upd h.cellUses (h.objCell o) (h.cellUses (h.objCell o) - 1))
        h.cellNext 1
      cellNext := h.cellNext + 1
      objCell := upd h.objCell o h.cellNext }
  else h

/-- An in-place mutating operation on container object `o`: the COW check
followed by a storage mutation `f`, the shared shape of
`Vector.__setitem__` (src/mf.py:434-447), `vector::push` (src/mf.py:3973),
`vector::pop`, `vector::insert`, `vector::remove`, `Map.__setitem__`
(src/mf.py:529), `Map.__delitem__`, `Set.insert` (src/mf.py:640) and
`Set.remove`. -/
def CowHeap.mutate {σ : Type} (h : CowHeap σ) (o : Nat) (f : σ → σ) : CowHeap σ :=
  { h.cow o with
    cellData := upd (h.cow o).cellData ((h.cow o).objCell o)
      (f ((h.cow o).cellData ((h.cow o).objCell o))) }

/-- A sequence of in-place mutating operations applied to object `o`. -/
def CowHeap.mutateMany {σ : Type} (h : CowHeap σ) (o : Nat) (fs : List (σ → σ)) :
    CowHeap σ :=
  fs.foldl (fun h f => h.mutate o f) h

/-- Model of `AstExpressionMkref.eval` (src/mf.py:2492) plus `Reference.__copy__` /
`Reference.cow` (src/mf.py:689-695): a reference is a handle on the
referent Value object itself, and copying the reference (as
`let r = v.&;` does via src/mf.py:2571) clones nothing — the referent's
object id is preserved.  Mutations through the reference therefore target
the original object. -/
def mkref (o : Nat) : Nat := o

/-- Model of `AstStatementLet.eval` (src/mf.py:2567-2571): `let w = v;` binds `w`
to `copy(result)` of the evaluated right-hand side. -/
def CowHeap.letBindCopy {σ : Type} (h : CowHeap σ) (o : Nat) : Nat × CowHeap σ :=
  h.valueCopy o

/-- Explicit-argument preparation in `AstExpressionFunctionCall.eval`
(src/mf.py:2370-2374): each explicit argument value is appended as
`copy(result)`; `call` (src/mf.py:3562) then binds parameters to the
prepared arguments without further copying. -/
def CowHeap.prepareArg {σ : Type} (h : CowHeap σ) (o : Nat) : Nat × CowHeap σ :=
  h.valueCopy o

/-- The implicit `self` argument of a method call
(src/mf.py:2325-2331, 2368-2369): `Reference.new(store)` on the receiver
object (or the receiver itself when it is already a Reference), appended
*without* copying; `call` binds it directly. -/
def selfArgument (o : Nat) : Nat := mkref o

/-- An explicitly passed Reference argument: `copy` of a `Reference`
(src/mf.py:689) preserves the referent object. -/
def refArgCopy (o : Nat) : Nat := o

/-- Model of `Vector.__setitem__` storage write (src/mf.py:447), after the key
checks and the COW step. -/
def vecSet {α : Type} (i : Nat) (x : α) (l : List α) : List α := l.set i x

/-- Model of `vector::push` storage write (src/mf.py:3979). -/
def vecPush {α : Type} (x : α) (l : List α) : List α := l ++ [x]

/-- Model of `vector::pop` storage write (src/mf.py:3988): Python `list.pop`
removes the last element. -/
def vecPop {α : Type} (l : List α) : List α := l.dropLast

/-- Model of `SharedMapData.__setitem__` entry write (insertion-ordered dict
update): replace in place when the key exists, else append. -/
def entrySet {κ α : Type} [DecidableEq κ] (k : κ) (v : α) (l : List (κ × α)) :
    List (κ × α) :=
  if l.any (fun p => p.1 = k) then
    l.map (fun p => if p.1 = k then (k, v) else p)
  else l ++ [(k, v)]

/-- Model of `SharedSetData.insert` storage write (src/mf.py:109): ordered-set
insert, a no-op on the order when the element is present. -/
def setIns {α : Type} [DecidableEq α] (x : α) (l : List α) : List α :=
  if l.contains x then l else l ++ [x]

/-- Model of `SharedSetData.remove` storage write (src/mf.py:112). -/
def setRem {α : Type} [DecidableEq α] (x : α) (l : List α) : List α :=
  l.filter (fun y => ¬ y = x)

/-- Frame invariant connecting a caller-held container object `o` to a
callee-held object `w`: `o`'s cell is an allocated cell (below
`cellNext`), its contents are still `v0`, and whenever `w` still shares
`o`'s cell the use-count is large enough that the next write through `w`
takes the COW path.  This is the source's use-count contract: `__init__`
increments `uses` for every live holder of a cell. -/
def FrameInv {σ : Type} (h : CowHeap σ) (o w : Nat) (v0 : σ) : Prop :=
  h.objCell o < h.cellNext ∧ h.cellData (h.objCell o) = v0 ∧
    (h.objCell w = h.objCell o → 1 < h.cellUses (h.objCell o))

/-- Expressions, restricted to the forms claims C2 and C8 exercise.
`lit` covers the literal expression nodes (src/mf.py:1744-1771), whose
evaluation returns a copy of the stored scalar — observationally the
value itself.  `effect` stands for an arbitrary other `AstExpression`
(for example a function call `F()` mutating caller state through a
reference), characterized, as the `and`/`or` evaluators see it, purely
by its evaluation function on the interpreter state `σ`. -/
inductive MExpr (σ : Type) where
  | lit (v : MValue)
  | andE (lhs rhs : MExpr σ)
  | orE (lhs rhs : MExpr σ)
  | effect (run : σ → σ × EvalOutcome)

/-- Model of `AstExpressionAnd.eval` (src/mf.py:1965-1983) and
`AstExpressionOr.eval` (src/mf.py:1993-2011): evaluate the left operand;
a Boolean-false (resp. Boolean-true) left operand short-circuits;
otherwise evaluate the right operand; a Boolean-false (resp.
Boolean-true) right operand also yields the short-circuit result even
when the left operand was not a Boolean; two Booleans combine; anything
else is a runtime type error.  Errors (and host exceptions) propagate. -/
def MExpr.eval {σ : Type} : MExpr σ → σ → σ × EvalOutcome
  | .lit v, s => (s, .val v)
  | .effect run, s => run s
  | .andE l r, s =>
      match l.eval s with
      | (s1, .err p) => (s1, .err p)
      | (s1, .exn m) => (s1, .exn m)
      | (s1, .val lv) =>
        if lv = .bool false then (s1, .val (.bool false))
        else
          match r.eval s1 with
          | (s2, .err p) => (s2, .err p)
          | (s2, .exn m) => (s2, .exn m)
          | (s2, .val rv) =>
            if rv = .bool false then (s2, .val (.bool false))
            else
              match lv, rv with
              | .bool a, .bool b => (s2, .val (.bool (a && b)))
              | lv, rv =>
                  (s2, .err (.str ("attempted binary and operation with types `"
                    ++ lv.typename ++ "` and `" ++ rv.typename ++ "`")))
  | .orE l r, s =>
      match l.eval s with
      | (s1, .err p) => (s1, .err p)
      | (s1, .exn m) => (s1, .exn m)
      | (s1, .val lv) =>
        if lv = .bool true then (s1, .val (.bool true))
        else
          match r.eval s1 with
          | (s2, .err p) => (s2, .err p)
          | (s2, .exn m) => (s2, .exn m)
          | (s2, .val rv) =>
            if rv = .bool true then (s2, .val (.bool true))
            else
              match lv, rv with
              | .bool a, .bool b => (s2, .val (.bool (a || b)))
              | lv, rv =>
                  (s2, .err (.str ("attempted binary or operation with types `"
                    ++ lv.typename ++ "` and `" ++ rv.typename ++ "`")))

/-- A statement / block outcome (src/mf.py:1561-1598): `none` models the
Python `None` result (normal completion), the others model `Return`,
`Break`, `Continue` and `Error` (carrying the Error's payload Value). -/
inductive CF where
  | ret (v : MValue)
  | brk
  | cont
  | err (payload : MValue)
deriving DecidableEq

/-- Result of running a `for` loop, together with the instrumentation
`visited`: the successive values bound to the induction variable `K` by
`loop_env.let` (src/mf.py:2638, 2657), in order.  `visited` is a proof
artifact recording the sequence of bindings; it is not interpreter
state. -/
structure LoopResult (σ : Type) where
  state : σ
  outcome : Option CF
  visited : List MValue
deriving DecidableEq

/-- The shared per-element loop of `AstStatementFor.eval`: bind `K`, run
the block, then dispatch on the outcome — `Return` propagates, `Break`
ends the loop cleanly, `Continue` and normal completion proceed, `Error`
propagates (src/mf.py:2639-2647 for the Number branch, 2661-2669 for the
Vector branch).  The block body is an arbitrary state transformer. -/
def loopRun {σ : Type} (body : σ → MValue → σ × Option CF) :
    List MValue → σ → LoopResult σ
  | [], s => ⟨s, none, []⟩
  | k :: rest, s =>
      match body s k with
      | (s', some (.ret v)) => ⟨s', some (.ret v), [k]⟩
      | (s', some .brk) => ⟨s', none, [k]⟩
      | (s', some .cont) =>
          let r := loopRun body rest s'
          ⟨r.state, r.outcome, k :: r.visited⟩
      | (s', some (.err p)) => ⟨s', some (.err p), [k]⟩
      | (s', none) =>
          let r := loopRun body rest s'
          ⟨r.state, r.outcome, k :: r.visited⟩

/-- Python `int(float)` truncation toward zero, as applied in the Number
branch of `for` (src/mf.py:2637); only reached behind the `is_integer`
check, so the special constructors are unreachable there. -/
def MNum.toIntPy : MNum → ℤ
  | .fin q => qtrunc q
  | _ => 0

/-- Model of `range(n)` over a Python int `n`: `0, 1, ..., n-1`, empty when
`n ≤ 0`. -/
def rangeList (n : ℤ) : List ℚ :=
  (List.range n.toNat).map (Nat.cast : ℕ → ℚ)

/-- Model of `AstStatementFor.eval`, Number branch (src/mf.py:2621-2647).  The
Number metamap has no `next` entry, so the user-iterator branch
(src/mf.py:2593) is skipped for Numbers.  `hasV` / `kRef` are the
key-value and `.&` reference-binding flags from the parse; then the
count must be an integral double, and `K` iterates over
`range(int(n))`. -/
def forNumber {σ : Type} (hasV kRef : Bool) (n : MNum)
    (body : σ → MValue → σ × Option CF) (s : σ) : LoopResult σ :=
  if hasV then
    ⟨s, some (.err (.str "attempted key-value iteration over type `number`")), []⟩
  else if kRef then
    ⟨s, some (.err (.str "cannot use a key-reference over type `number`")), []⟩
  else if !n.isInteger then
    ⟨s, some (.err (.str "attempted iteration over non-integer number")), []⟩
  else
    loopRun body ((rangeList n.toIntPy).map (fun q => .num (.fin q))) s

/-- Model of `AstStatementFor.eval`, Vector branch (src/mf.py:2586-2590 and
2648-2669), over the COW heap: the collection expression's value is
`copy`d (src/mf.py:2590 — a fresh handle sharing the same storage cell),
key-value iteration is rejected, and the loop runs over
`list(collection.data)`, a snapshot of the storage taken before the
first iteration.  `K` is bound to `copy(x)` per element (observationally
the element itself; the `.&` element-reference binding is outside this
scalar-element model and not exercised by claim C6).  The body is an
arbitrary heap transformer — it may mutate any container, including the
iterated one. -/
def forVector (v : Nat) (hasV : Bool)
    (body : CowHeap (List MValue) → MValue → CowHeap (List MValue) × Option CF)
    (h : CowHeap (List MValue)) : LoopResult (CowHeap (List MValue)) :=
  if hasV then
    ⟨h, some (.err (.str "attempted key-value iteration over type `vector`")), []⟩
  else
    let copied := h.valueCopy v
    let snapshot := copied.2.obs copied.1
    loopRun body snapshot copied.2

/-- A lexical scope chain (`Environment`, src/mf.py:1533-1558): each
scope holds an insertion-ordered store and an optional outer scope. -/
inductive MEnv where
  | scope (store : List (String × MValue)) (outer : Option MEnv)

/-- Model of `Environment.let` (src/mf.py:1543): insert into the innermost
scope's store, replacing in place if the name exists. -/
def MEnv.letIn : MEnv → String → MValue → MEnv
  | .scope store outer, k, v => .scope (entrySet k v store) outer

/-- Model of `Environment(env)` (src/mf.py:1539): a fresh child scope with an
empty store. -/
def MEnv.child (e : MEnv) : MEnv := .scope [] (some e)

/-- Model of `AstStatementTry.eval` (src/mf.py:2802-2815): run the try block;
`Return` / `Break` / `Continue` propagate unchanged without touching the
catch block; an `Error` outcome binds its payload to the catch
identifier (when present) in a fresh child scope and runs the catch
block there; normal completion completes normally.  Blocks are modeled
as their evaluation functions `MEnv → σ → σ × Option CF` (an `AstBlock`
itself opens a further scope internally, src/mf.py:2523). -/
def tryEval {σ : Type} (tryBlock : MEnv → σ → σ × Option CF)
    (catchId : Option String) (catchBlock : MEnv → σ → σ × Option CF)
    (env : MEnv) (s : σ) : σ × Option CF :=
  match tryBlock env s with
  | (s1, some (.ret v)) => (s1, some (.ret v))
  | (s1, some .brk) => (s1, some .brk)
  | (s1, some .cont) => (s1, some .cont)
  | (s1, some (.err p)) =>
      let env1 := env.child
      let env2 := match catchId with
        | some id => env1.letIn id p
        | none => env1
      catchBlock env2 s1
  | (s1, none) => (s1, none)

/-- A mellifera map object as the assignment statement sees it: its
insertion-ordered entries plus the `MetaMap` discriminator (`MetaMap`
subclasses `Map` and overrides `__setitem__` to raise, src/mf.py:567-584;
`name` is the metamap's type name).  COW bookkeeping is orthogonal here
(a metamap write raises before touching storage) and is modeled by
`CowHeap`. -/
structure MMap where
  isMeta : Bool
  name : Option String
  entries : List (MValue × MValue)
deriving DecidableEq

/-- Model of `Map.__setitem__` (src/mf.py:529-537) vs `MetaMap.__setitem__`
(src/mf.py:577-581): a write to a metamap raises
`Exception("attempted to modify metamap ...")` before touching anything;
a plain map updates its entries. -/
def MMap.setItem (m : MMap) (k v : MValue) : Except MValue MMap :=
  if m.isMeta then .error (.str "attempted to modify metamap")
  else .ok { m with entries := entrySet k v m.entries }

/-- The Map/Vector store branch of `AstStatementAssignment.eval`
(src/mf.py:2908-2918), reached by `M[k] = v`, `M.k = v` and `M::k = v`
when the target store is a Map (metamaps included, being Map
subclasses): the write is attempted and any raised exception is caught
(`except Exception`, src/mf.py:2917) and returned as a runtime `Error`,
leaving the store as it was.  Returns the store after the statement and
the statement outcome. -/
def assignToMap (m : MMap) (k v : MValue) : MMap × Option CF :=
  match m.setItem k v with
  | .ok m' => (m', none)
  | .error p => (m, some (.err p))

/-- Model of `AstExpressionType.eval` (src/mf.py:1854-1863) on a Map operand:
`type EXPR` turns the evaluated Map into a `MetaMap` carrying the
synthesized name and sharing the map's data.  (A non-Map operand is a
runtime error, a path claim C9 does not exercise.)  The per-type
metamaps created at bootstrap (src/mf.py:4985-5332) are likewise
`MetaMap` instances, i.e. values with `isMeta = true`. -/
def typeEval (name : String) (m : MMap) : MMap :=
  { isMeta := true, name := some name, entries := m.entries }

/-- Python `str.find` on a character: index of the first occurrence, or
-1 when absent (src/mf.py:279). -/
def pyFind (cs : List Char) (c : Char) : Int :=
  match cs.findIdx? (fun x => x = c) with
  | some i => (i : Int)
  | none => -1

/-- The trailing-zero / trailing-dot trimming of `Number.__str__`
(src/mf.py:278-285), applied to the output of Python `str(float)`:
`dot` is the index of the first `.` (or -1), the `while` loop strips
every trailing `'0'`, and the trailing `.` is stripped when it is the
last remaining character.  (A `str(float)` result always contains a
nonzero digit or a dot, so the Python loop cannot underrun.) -/
def trimRepr (s : String) : String :=
  let cs := s.toList
  let dot := pyFind cs '.'
  let stripped := (cs.reverse.dropWhile (fun c => c = '0')).reverse
  let final := if dot = (stripped.length : Int) - 1 then stripped.dropLast
    else stripped
  String.mk final

/-- Model of `Number.__str__` (src/mf.py:271-285): the IEEE specials print as
`NaN` / `Inf` / `-Inf`; a finite double prints as the trimmed host
`str(float)` string.  The host repr string is passed in as `rep`:
CPython's float repr is the shortest decimal numeral that reads back to
the same double (so `str(1e20)` is `"1e+20"`, `1e20` being exactly
representable since `5^20 < 2^53`). -/
def numberStr (n : MNum) (rep : String) : String :=
  match n with
  | .nan => "NaN"
  | .inf => "Inf"
  | .ninf => "-Inf"
  | .fin _ => trimRepr rep

/-- Numeric value of a digit string. -/
def digitsToNat (cs : List Char) : ℕ :=
  cs.foldl (fun a c => a * 10 + (c.toNat - 48)) 0

/-- Split a leading run of decimal digits. -/
def takeDigits (cs : List Char) : List Char × List Char :=
  (cs.takeWhile Char.isDigit, cs.dropWhile Char.isDigit)

/-- The exact rational denoted by a decimal numeral in the plain or
scientific form printed by Python's float repr
(`[+-]? digits [. digits]? [e [+-]? digits]?`): the value that reading
the numeral back (`float(s)`) rounds to the nearest double.  Returns
`none` on any other shape.  The value `±(int·10^f + frac) · 10^±e / 10^f`
is assembled with `mkRat` over integer arithmetic so that it is
kernel-computable. -/
def sciValue (s : String) : Option ℚ :=
  let cs := s.toList
  let signed : Bool × List Char :=
    match cs with
    | '-' :: t => (true, t)
    | '+' :: t => (false, t)
    | _ => (false, cs)
  let (ds, rest) := takeDigits signed.2
  if ds = [] then none
  else
    let mant : Option (ℕ × ℕ × List Char) :=
      match rest with
      | '.' :: t =>
          let (fs, rest2) := takeDigits t
          if fs = [] then none
          else some (digitsToNat ds * 10 ^ fs.length + digitsToNat fs, fs.length, rest2)
      | _ => some (digitsToNat ds, 0, rest)
    match mant with
    | none => none
    | some (mnum, flen, rest2) =>
        let snum : ℤ := if signed.1 then -(mnum : ℤ) else (mnum : ℤ)
        match rest2 with
        | [] => some (mkRat snum (10 ^ flen))
        | 'e' :: t =>
            let esigned : Bool × List Char :=
              match t with
              | '-' :: t2 => (true, t2)
              | '+' :: t2 => (false, t2)
              | _ => (false, t)
            let (es, rest3) := takeDigits esigned.2
            if es = [] then none
            else if rest3 ≠ [] then none
            else if esigned.1 then
              some (mkRat snum (10 ^ flen * 10 ^ digitsToNat es))
            else some (mkRat (snum * 10 ^ digitsToNat es) (10 ^ flen))
        | _ => none

/-- A tiny concrete heap for witnesses: one vector object (id 0) owning
cell 0 with use-count 1 and contents `[1, 2]`. -/
def demoHeap : CowHeap (List MValue) where
  cellData := fun _ => [.num (.fin 1), .num (.fin 2)]
  cellUses := fun c => if c = 0 then 1 else 0
  cellNext := 1
  objCell := fun _ => 0
  objNext := 1

/-- A loop body that always completes normally and does nothing. -/
def unitBody : Unit → MValue → Unit × Option CF := fun s _ => (s, none)

/-- A loop body that pushes `9` onto the iterated vector (object 0)
through a reference on every iteration — the mutation claim C6 requires
to be invisible to the iteration sequence. -/
def pushBody : CowHeap (List MValue) → MValue → CowHeap (List MValue) × Option CF :=
  fun h _ => (h.mutate (mkref 0) (vecPush (.num (.fin 9))), none)

/-- An effectful subexpression `F()` for the short-circuit witness: it
bumps a counter (an observable side effect) and yields `true`. -/
def tickExpr : MExpr ℕ := .effect (fun n => (n + 1, .val (.bool true)))

/-- A try block producing `Return null` after a state bump. -/
def retBlock : MEnv → ℕ → ℕ × Option CF := fun _ s => (s + 1, some (.ret .null))

/-- A try block raising an Error with payload `"boom"` after a state
bump. -/
def errBlock : MEnv → ℕ → ℕ × Option CF := fun _ s => (s + 1, some (.err (.str "boom")))

/-- A catch block with an observable state bump. -/
def probeCatch : MEnv → ℕ → ℕ × Option CF := fun _ s => (s + 7, none)

/-- A concrete metamap (as built by `type { ... }` or at bootstrap). -/
def demoMeta : MMap := { isMeta := true, name := some "t", entries := [(.str "f", .null)] }

/-! Section: Copy-on-write heap lemmas -/

theorem upd_same {α : Type} (f : Nat → α) (i : Nat) (a : α) : upd f i a i = a := by
  simp [upd]

theorem upd_other {α : Type} (f : Nat → α) (i : Nat) (a : α) (j : Nat)
    (h : j ≠ i) : upd f i a j = f j := by
  simp [upd, h]

/-- The COW step never changes what the object itself observes: either
nothing happens, or the object adopts a fresh cell holding the same
contents. -/
theorem obs_cow {σ : Type} (h : CowHeap σ) (o : Nat) :
    (h.cow o).obs o = h.obs o := by
  unfold CowHeap.cow CowHeap.obs
  by_cases hu : 1 < h.cellUses (h.objCell o)
  · simp only [if_pos hu, upd_same, upd_other]
  · simp only [if_neg hu]

/-- Mutating a container object in place (through a reference or
otherwise) is always visible through that object: the observed contents
become `f` of the previous contents, whether or not the COW step
intervened. -/
theorem obs_mutate_self {σ : Type} (h : CowHeap σ) (o : Nat) (f : σ → σ) :
    (h.mutate o f).obs o = f (h.obs o) := by
  have hc := obs_cow h o
  unfold CowHeap.obs at hc ⊢
  unfold CowHeap.mutate
  simp only [upd_same]
  exact congrArg f hc

/-- One in-place mutation of `w` preserves the frame invariant for a
distinct object `o`. -/
theorem frameInv_mutate {σ : Type} (h : CowHeap σ) (o w : Nat) (v0 : σ)
    (f : σ → σ) (how : o ≠ w) (hinv : FrameInv h o w v0) :
    FrameInv (h.mutate w f) o w v0 := by
  obtain ⟨hlt, hdata, hshare⟩ := hinv
  have hocell : h.objCell o ≠ h.cellNext := Nat.ne_of_lt hlt
  unfold FrameInv CowHeap.mutate CowHeap.cow
  by_cases hu : 1 < h.cellUses (h.objCell w)
  · simp only [if_pos hu, upd_same, upd_other _ _ _ o how]
    refine ⟨Nat.lt_succ_of_lt hlt, ?_, ?_⟩
    · rw [upd_other _ _ _ _ hocell, upd_other _ _ _ _ hocell]
      exact hdata
    · intro heq
      exact absurd heq.symm hocell
  · have hcells : h.objCell w ≠ h.objCell o := by
      intro heq
      exact hu (heq ▸ hshare heq)
    simp only [if_neg hu]
    refine ⟨hlt, ?_, ?_⟩
    · rw [upd_other _ _ _ _ (Ne.symm hcells)]
      exact hdata
    · intro heq
      exact absurd heq hcells

/-- A sequence of in-place mutations of `w` preserves the frame
invariant for a distinct object `o`. -/
theorem frameInv_mutateMany {σ : Type} (fs : List (σ → σ)) (h : CowHeap σ)
    (o w : Nat) (v0 : σ) (how : o ≠ w) (hinv : FrameInv h o w v0) :
    FrameInv (h.mutateMany w fs) o w v0 := by
  induction fs generalizing h with
  | nil => exact hinv
  | cons f rest ih => exact ih _ (frameInv_mutate h o w v0 f how hinv)

/-- Copying a container (`copy(result)`, as `let` bindings and call-site
arguments do) and then mutating the copy — any number of times, with any
storage mutations — leaves the original observationally unchanged.
Hypotheses are the source's use-count contract: the original's cell is
allocated with at least one live holder and the object id is live. -/
theorem obs_copy_mutateMany {σ : Type} (h : CowHeap σ) (o : Nat)
    (fs : List (σ → σ))
    (huse : 1 ≤ h.cellUses (h.objCell o))
    (hcell : h.objCell o < h.cellNext)
    (hobj : o < h.objNext) :
    ((h.valueCopy o).2.mutateMany (h.valueCopy o).1 fs).obs o = h.obs o := by
  have hne : o ≠ (h.valueCopy o).1 := Nat.ne_of_lt hobj
  have hne' : o ≠ h.objNext := Nat.ne_of_lt hobj
  have hinit : FrameInv (h.valueCopy o).2 o (h.valueCopy o).1 (h.obs o) := by
    unfold FrameInv CowHeap.valueCopy CowHeap.obs
    simp only [upd_same, upd_other _ _ _ o hne']
    exact ⟨hcell, trivial, fun _ => Nat.lt_succ_of_le huse⟩
  have hfinal := frameInv_mutateMany fs (h.valueCopy o).2 o (h.valueCopy o).1
    (h.obs o) hne hinit
  exact hfinal.2.1

/-- C1: copy-on-write isolation.  For a container value `v` (vector, map
or set — the storage type `σ` and storage mutation `f` range over all of
them, e.g. `vecSet i x`, `vecPush x`, `vecPop`, `entrySet k x`,
`setIns x`, `setRem x`), executing `let w = v;` (`letBindCopy`) and then
any in-place mutating operation on `w` leaves `v` observationally
unchanged; conversely after `let r = v.&;` (`mkref`, preserved by the
`let` copy) any mutation performed through the reference is visible
through `v`.  The hypotheses are the source's use-count contract for the
live value `v`. -/
theorem c1_cow_isolation (σ : Type) (h : CowHeap σ) (o : Nat) (f : σ → σ)
    (huse : 1 ≤ h.cellUses (h.objCell o))
    (hcell : h.objCell o < h.cellNext)
    (hobj : o < h.objNext) :
    ((h.letBindCopy o).2.mutate (h.letBindCopy o).1 f).obs o = h.obs o ∧
    (h.mutate (mkref o) f).obs o = f (h.obs o) := by
  constructor
  · have heq : (h.letBindCopy o).2.mutate (h.letBindCopy o).1 f
        = (h.letBindCopy o).2.mutateMany (h.letBindCopy o).1 [f] := rfl
    rw [heq]
    exact obs_copy_mutateMany h o [f] huse hcell hobj
  · exact obs_mutate_self h o f

/-- Witness for C1 at a concrete heap: `let w = v; w.push(3)` leaves
`v = [1, 2]` unchanged, while `v.&` followed by a push through the
reference makes `v` observe `[1, 2, 3]`. -/
theorem c1_witness :
    ((demoHeap.letBindCopy 0).2.mutate (demoHeap.letBindCopy 0).1
        (vecPush (.num (.fin 3)))).obs 0 = demoHeap.obs 0 ∧
    (demoHeap.mutate (mkref 0) (vecPush (.num (.fin 3)))).obs 0
      = vecPush (.num (.fin 3)) (demoHeap.obs 0) :=
  c1_cow_isolation (List MValue) demoHeap 0 (vecPush (.num (.fin 3)))
    (by decide) (by decide) (by decide)

/-- C10: call-site argument copying.  Every explicit argument of a call
is copied before being bound to the callee's parameter (`prepareArg`),
so any sequence of in-place mutations the callee performs on the
parameter is invisible through the caller's value; the implicit `self`
argument of a method call (`selfArgument`, a Reference) and an
explicitly passed Reference (`refArgCopy`) alias the caller's object, so
mutations through them are visible to the caller. -/
theorem c10_call_argument_copying (σ : Type) (h : CowHeap σ) (o : Nat)
    (fs : List (σ → σ)) (f : σ → σ)
    (huse : 1 ≤ h.cellUses (h.objCell o))
    (hcell : h.objCell o < h.cellNext)
    (hobj : o < h.objNext) :
    ((h.prepareArg o).2.mutateMany (h.prepareArg o).1 fs).obs o = h.obs o ∧
    (h.mutate (selfArgument o) f).obs o = f (h.obs o) ∧
    (h.mutate (refArgCopy o) f).obs o = f (h.obs o) :=
  ⟨obs_copy_mutateMany h o fs huse hcell hobj,
   obs_mutate_self h o f, obs_mutate_self h o f⟩

/-- Witness for C10 at a concrete heap: a callee pushing then popping on
its copied parameter leaves the caller's `[1, 2]` unchanged, while a
single push through the self-reference is visible. -/
theorem c10_witness :
    ((demoHeap.prepareArg 0).2.mutateMany (demoHeap.prepareArg 0).1
        [vecPush (.num (.fin 7)), vecPop]).obs 0 = demoHeap.obs 0 ∧
    (demoHeap.mutate (selfArgument 0) (vecPush (.num (.fin 7)))).obs 0
      = vecPush (.num (.fin 7)) (demoHeap.obs 0) :=
  have h := c10_call_argument_copying (List MValue) demoHeap 0
    [vecPush (.num (.fin 7)), vecPop] (vecPush (.num (.fin 7)))
    (by decide) (by decide) (by decide)
  ⟨h.1, h.2.1⟩

/-! Section: fmod sign lemmas -/

theorem qtrunc_eq (q : ℚ) : qtrunc q = if 0 ≤ q then ⌊q⌋ else ⌈q⌉ := by
  unfold qtrunc
  by_cases h : 0 ≤ q
  · rw [if_pos (Rat.num_nonneg.mpr h), if_pos h]
  · rw [if_neg (fun hn => h (Rat.num_nonneg.mp hn)), if_neg h]

theorem qtrunc_neg (q : ℚ) : qtrunc (-q) = - qtrunc q := by
  rw [qtrunc_eq, qtrunc_eq]
  rcases lt_trichotomy q 0 with h | h | h
  · rw [if_pos (by linarith : (0 : ℚ) ≤ -q), if_neg (not_le.mpr h), Int.floor_neg]
  · subst h
    norm_num
  · rw [if_neg (by simpa using h), if_pos (le_of_lt h), Int.ceil_neg]

theorem fmodQ_neg_left (a b : ℚ) : fmodQ (-a) b = - fmodQ a b := by
  unfold fmodQ
  rw [neg_div, qtrunc_neg]
  push_cast
  ring

/-- The remainder of a nonnegative dividend is nonnegative. -/
theorem fmodQ_nonneg (a b : ℚ) (hb : b ≠ 0) (ha : 0 ≤ a) : 0 ≤ fmodQ a b := by
  unfold fmodQ
  rw [qtrunc_eq]
  have hmul : b * (a / b) = a := by
    field_simp
  by_cases hq : 0 ≤ a / b
  · rw [if_pos hq]
    have hrw : a - b * ⌊a / b⌋ = b * Int.fract (a / b) := by
      rw [Int.fract, mul_sub, hmul]
    rw [hrw]
    rcases le_or_lt 0 b with hbp | hbn
    · exact mul_nonneg hbp (Int.fract_nonneg _)
    · have hq0 : a / b ≤ 0 := by
        apply div_nonpos_of_nonneg_of_nonpos ha (le_of_lt hbn)
      have hq00 : a / b = 0 := le_antisymm hq0 hq
      rw [hq00]
      simp
  · rw [if_neg hq]
    push_neg at hq
    have hbn : b < 0 := by
      rcases lt_trichotomy b 0 with h | h | h
      · exact h
      · exact absurd h hb
      · exact absurd (div_nonneg ha (le_of_lt h)) (not_le.mpr hq)
    have hceil : a / b - ⌈a / b⌉ ≤ 0 := sub_nonpos.mpr (Int.le_ceil _)
    have hrw : a - b * ⌈a / b⌉ = b * (a / b - ⌈a / b⌉) := by
      rw [mul_sub, hmul]
    rw [hrw]
    nlinarith [mul_nonneg (neg_nonneg.mpr (le_of_lt hbn)) (neg_nonneg.mpr hceil)]

/-- The remainder of a nonpositive dividend is nonpositive. -/
theorem fmodQ_nonpos (a b : ℚ) (hb : b ≠ 0) (ha : a ≤ 0) : fmodQ a b ≤ 0 := by
  have h := fmodQ_nonneg (-a) b hb (by linarith)
  rw [fmodQ_neg_left] at h
  linarith

/-- C5 counterexample: at the concrete Number operands `a = Inf`,
`b = 1`, the claim says `a % b` equals C's `fmod(Inf, 1) = NaN`; the code
instead lets `math.fmod`'s `ValueError` escape, aborting the
interpreter, and in particular does not produce NaN. -/
theorem c5_counterexample :
    remOp (.num .inf) (.num (.fin 1)) = .exn "math domain error" ∧
    remOp (.num .inf) (.num (.fin 1)) ≠ .val (.num .nan) := by
  exact ⟨by decide, by decide⟩

/-- C5 (amended): `a / b` and `a % b` with `b = 0` yield runtime errors;
for finite nonzero `b` and finite `a`, `a % b` equals the exact C `fmod`
value, whose nonzero remainder always has the sign of the dividend `a`;
for an infinite dividend and non-NaN nonzero divisor the interpreter
aborts with the uncaught `math.fmod` ValueError instead of producing C's
NaN. -/
theorem c5_div_rem_semantics :
    (∀ a : MNum, divOp (.num a) (.num (.fin 0)) = .err (.str "division by zero")) ∧
    (∀ a : MNum,
      remOp (.num a) (.num (.fin 0)) = .err (.str "remainder with divisor zero")) ∧
    (∀ a b : ℚ, b ≠ 0 →
      remOp (.num (.fin a)) (.num (.fin b)) = .val (.num (.fin (fmodQ a b))) ∧
      (fmodQ a b ≠ 0 →
        (0 < a → 0 < fmodQ a b) ∧ (a < 0 → fmodQ a b < 0))) ∧
    (∀ b : MNum, b.eqZero = false → b ≠ .nan →
      remOp (.num .inf) (.num b) = .exn "math domain error" ∧
      remOp (.num .ninf) (.num b) = .exn "math domain error") := by
  refine ⟨fun a => rfl, fun a => rfl, ?_, ?_⟩
  · intro a b hb
    have hz : (MNum.fin b).eqZero = false := by
      simp [MNum.eqZero, hb]
    constructor
    · simp [remOp, hz, pyFmod, if_neg hb]
    · intro hne
      constructor
      · intro ha
        exact lt_of_le_of_ne (fmodQ_nonneg a b hb (le_of_lt ha)) (Ne.symm hne)
      · intro ha
        exact lt_of_le_of_ne (fmodQ_nonpos a b hb (le_of_lt ha)) hne
  · intro b hbz hnan
    cases b with
    | fin q => exact ⟨by simp [remOp, hbz, pyFmod], by simp [remOp, hbz, pyFmod]⟩
    | nan => exact absurd rfl hnan
    | inf => exact ⟨by decide, by decide⟩
    | ninf => exact ⟨by decide, by decide⟩

/-- Witness for C5 at concrete operands: `7 % -3 = 1` (sign of the
dividend, matching C's fmod), and `5 / 0` is a runtime error. -/
theorem c5_witness :
    remOp (.num (.fin 7)) (.num (.fin (-3))) = .val (.num (.fin (fmodQ 7 (-3)))) ∧
    fmodQ 7 (-3) = 1 ∧ 0 < fmodQ 7 (-3) ∧
    divOp (.num (.fin 5)) (.num (.fin 0)) = .err (.str "division by zero") := by
  have h := c5_div_rem_semantics.2.2.1 7 (-3) (by norm_num)
  have hq : qtrunc ((7 : ℚ) / -3) = -2 := by
    norm_num [qtrunc, Int.ceil_eq_iff]
  have hfm : fmodQ 7 (-3) = 1 := by
    unfold fmodQ
    rw [hq]
    norm_num
  exact ⟨h.1, hfm, (h.2 (by rw [hfm]; norm_num)).1 (by norm_num),
    c5_div_rem_semantics.1 (.fin 5)⟩

/-- C2 counterexample: at the concrete input `1 and false` the left
operand evaluates to the non-Boolean `1` and the right operand evaluates
without error, yet the operation completes without error and yields the
Boolean `false` (src/mf.py:1975 returns before the type check), not a
runtime type error. -/
theorem c2_counterexample :
    (MExpr.andE (σ := Unit) (.lit (.num (.fin 1))) (.lit (.bool false))).eval ()
      = ((), .val (.bool false)) := by
  decide

/-- C2 (amended): an evaluated operand of `and`/`or` may be non-Boolean
without triggering an error exactly when the *right* operand is the
short-circuit absorbing element (Boolean `false` for `and`, Boolean
`true` for `or`), in which case that Boolean is returned; in every other
case a non-Boolean left operand with an error-free right operand yields
a runtime type error, and any error-free result of `and`/`or` is a
Boolean. -/
theorem c2_and_or_boolean_discipline :
    (∀ (σ : Type) (l r : MExpr σ) (s s1 s2 : σ) (lv rv : MValue),
      l.eval s = (s1, .val lv) → (∀ b, lv ≠ .bool b) →
      r.eval s1 = (s2, .val rv) →
      (rv ≠ .bool false →
        (MExpr.andE l r).eval s
          = (s2, .err (.str ("attempted binary and operation with types `"
              ++ lv.typename ++ "` and `" ++ rv.typename ++ "`")))) ∧
      (rv ≠ .bool true →
        (MExpr.orE l r).eval s
          = (s2, .err (.str ("attempted binary or operation with types `"
              ++ lv.typename ++ "` and `" ++ rv.typename ++ "`"))))) ∧
    (∀ (σ : Type) (l r : MExpr σ) (s s' : σ) (v : MValue),
      ((MExpr.andE l r).eval s = (s', .val v) ∨
        (MExpr.orE l r).eval s = (s', .val v)) →
      ∃ b, v = .bool b) := by
  constructor
  · intro σ l r s s1 s2 lv rv hl hlv hr
    constructor
    · intro hrv
      unfold MExpr.eval
      rw [hl]
      dsimp only
      rw [if_neg (hlv false), hr]
      dsimp only
      rw [if_neg hrv]
      cases lv with
      | bool b => exact absurd rfl (hlv b)
      | null => rfl
      | num n => rfl
      | str t => rfl
    · intro hrv
      unfold MExpr.eval
      rw [hl]
      dsimp only
      rw [if_neg (hlv true), hr]
      dsimp only
      rw [if_neg hrv]
      cases lv with
      | bool b => exact absurd rfl (hlv b)
      | null => rfl
      | num n => rfl
      | str t => rfl
  · intro σ l r s s' v hor
    rcases hor with h | h
    · unfold MExpr.eval at h
      repeat' split at h
      all_goals simp at h
      all_goals exact ⟨_, h.2.symm⟩
    · unfold MExpr.eval at h
      repeat' split at h
      all_goals simp at h
      all_goals exact ⟨_, h.2.symm⟩

/-- Witness for C2 at a concrete input: `1 and null` is a runtime type
error (the right operand is not the absorbing Boolean), obtained by
instantiating the amended theorem. -/
theorem c2_witness :
    (MExpr.andE (σ := Unit) (.lit (.num (.fin 1))) (.lit .null)).eval ()
      = ((), .err (.str ("attempted binary and operation with types `"
          ++ (MValue.num (.fin 1)).typename ++ "` and `"
          ++ MValue.null.typename ++ "`"))) :=
  (c2_and_or_boolean_discipline.1 Unit (.lit (.num (.fin 1))) (.lit .null)
    () () () (.num (.fin 1)) .null rfl (by intro b h; cases h) rfl).1
    (by intro h; cases h)

/-- C8: short-circuit evaluation.  When the left operand of `and`
evaluates to Boolean `false` (resp. of `or` to Boolean `true`), the
result is that Boolean and the interpreter state is exactly the state
after the left operand — for *every* right-hand expression `r`,
including arbitrarily effectful ones, so no side effect of `r`
occurs and `r` is never evaluated. -/
theorem c8_short_circuit (σ : Type) (l r : MExpr σ) (s s1 : σ) :
    (l.eval s = (s1, .val (.bool false)) →
      (MExpr.andE l r).eval s = (s1, .val (.bool false))) ∧
    (l.eval s = (s1, .val (.bool true)) →
      (MExpr.orE l r).eval s = (s1, .val (.bool true))) := by
  constructor
  · intro hl
    unfold MExpr.eval
    rw [hl]
    dsimp only
    rw [if_pos rfl]
  · intro hl
    unfold MExpr.eval
    rw [hl]
    dsimp only
    rw [if_pos rfl]

/-- Witness for C8 at a concrete input: with `F()` an effectful
subexpression bumping a counter, `false and F()` and `true or F()` leave
the counter at 0 and yield the Boolean, so `F` was not invoked. -/
theorem c8_witness :
    (MExpr.andE (.lit (.bool false)) tickExpr).eval 0 = (0, .val (.bool false)) ∧
    (MExpr.orE (.lit (.bool true)) tickExpr).eval 0 = (0, .val (.bool true)) :=
  ⟨(c8_short_circuit ℕ (.lit (.bool false)) tickExpr 0 0).1 rfl,
   (c8_short_circuit ℕ (.lit (.bool true)) tickExpr 0 0).2 rfl⟩

/-- When every body run completes normally, the loop visits exactly the
prepared element list, in order, and completes normally — regardless of
what the body does to the state. -/
theorem loopRun_normal {σ : Type} (body : σ → MValue → σ × Option CF)
    (hbody : ∀ s k, (body s k).2 = none) (ks : List MValue) :
    ∀ s : σ, (loopRun body ks s).visited = ks ∧ (loopRun body ks s).outcome = none := by
  induction ks with
  | nil => exact fun s => ⟨rfl, rfl⟩
  | cons k rest ih =>
    intro s
    have hk := hbody s k
    rcases hb : body s k with ⟨s', o⟩
    rw [hb] at hk
    simp only at hk
    subst hk
    unfold loopRun
    rw [hb]
    dsimp only
    exact ⟨congrArg (k :: ·) (ih s').1, (ih s').2⟩

/-- C3 counterexample: at the concrete count `N = -1` (a negative
integer) the claim says the statement yields a runtime error, but the
code runs `range(int(-1.0))`, which is empty: the loop completes
normally with zero iterations (src/mf.py:2632 only rejects non-integer
doubles, src/mf.py:2637 silently produces an empty range). -/
theorem c3_counterexample :
    forNumber false false (.fin (-1)) unitBody () = ⟨(), none, []⟩ := by
  rfl

/-- C3 (amended): for `for K in N` with N a Number: if N is a
non-negative integer n the body runs with K bound to 0, 1, ..., n-1 in
that order; if N is not integer-valued (a fractional double, NaN or
±Inf) the statement yields a runtime error; if N is a negative integer
the body runs zero times and the statement completes normally (no
error). -/
theorem c3_for_number (σ : Type) (body : σ → MValue → σ × Option CF) (s : σ) :
    (∀ n : ℕ, (∀ s' k, (body s' k).2 = none) →
      (forNumber false false (.fin (n : ℚ)) body s).visited
          = (List.range n).map (fun i => .num (.fin (i : ℚ))) ∧
        (forNumber false false (.fin (n : ℚ)) body s).outcome = none) ∧
    (∀ m : MNum, m.isInteger = false →
      forNumber false false m body s
        = ⟨s, some (.err (.str "attempted iteration over non-integer number")), []⟩) ∧
    (∀ q : ℚ, q.den = 1 → q < 0 →
      forNumber false false (.fin q) body s = ⟨s, none, []⟩) := by
  refine ⟨?_, ?_, ?_⟩
  · intro n hbody
    have hint : (MNum.fin (n : ℚ)).isInteger = true := by
      simp [MNum.isInteger, Rat.den_natCast]
    have htrunc : (MNum.fin (n : ℚ)).toIntPy = (n : ℤ) := by
      unfold MNum.toIntPy
      dsimp only
      rw [qtrunc_eq, if_pos (by positivity), Int.floor_natCast]
    unfold forNumber
    rw [if_neg (by simp), if_neg (by simp), if_neg (by simp [hint]), htrunc]
    unfold rangeList
    rw [Int.toNat_natCast]
    refine ⟨?_, (loopRun_normal body hbody _ s).2⟩
    rw [(loopRun_normal body hbody _ s).1, List.map_map]
    rfl
  · intro m hm
    unfold forNumber
    rw [if_neg (by simp), if_neg (by simp), if_pos (by simp [hm])]
  · intro q hden hneg
    have hint : (MNum.fin q).isInteger = true := by
      simp [MNum.isInteger, hden]
    have hrange : rangeList (MNum.fin q).toIntPy = [] := by
      unfold MNum.toIntPy rangeList
      have hle : qtrunc q ≤ 0 := by
        rw [qtrunc_eq, if_neg (not_le.mpr hneg)]
        exact Int.ceil_le.mpr (by exact_mod_cast le_of_lt hneg)
      rw [Int.toNat_of_nonpos hle]
      rfl
    unfold forNumber
    rw [if_neg (by simp), if_neg (by simp), if_neg (by simp [hint]), hrange]
    rfl

/-- Witness for C3 at concrete inputs: `for K in 3` visits 0, 1, 2 and
completes normally; `for K in 2.5` is a runtime error. -/
theorem c3_witness :
    (forNumber false false (.fin ((3 : ℕ) : ℚ)) unitBody ()).visited
        = [.num (.fin 0), .num (.fin 1), .num (.fin 2)] ∧
    forNumber false false (.fin (mkRat 5 2)) unitBody ()
      = ⟨(), some (.err (.str "attempted iteration over non-integer number")), []⟩ := by
  constructor
  · have h := (c3_for_number Unit unitBody ()).1 3 (fun _ _ => rfl)
    rw [h.1]
    decide
  · exact (c3_for_number Unit unitBody ()).2.1 (.fin (mkRat 5 2)) (by decide)

/-- C6: vector iteration faithfulness.  The elements bound by
`for x in V` are exactly `V`'s index-0 … index-(n-1) sequence as
observed when the loop starts, for *every* loop body — including bodies
that mutate any container on the heap, the iterated vector included —
because the loop runs over a snapshot (`list(collection.data)`) taken
from the `copy`d collection handle before the first iteration. -/
theorem c6_vector_iteration_snapshot
    (h : CowHeap (List MValue)) (v : Nat)
    (body : CowHeap (List MValue) → MValue → CowHeap (List MValue) × Option CF)
    (hbody : ∀ h' k, (body h' k).2 = none) :
    (forVector v false body h).visited = h.obs v ∧
    (forVector v false body h).outcome = none := by
  have hsnap : (h.valueCopy v).2.obs (h.valueCopy v).1 = h.obs v := by
    unfold CowHeap.valueCopy CowHeap.obs
    simp only [upd_same]
  have hfv : forVector v false body h
      = loopRun body ((h.valueCopy v).2.obs (h.valueCopy v).1) (h.valueCopy v).2 := rfl
  rw [hfv, hsnap]
  exact loopRun_normal body hbody (h.obs v) (h.valueCopy v).2

/-- Witness for C6 at a concrete heap: iterating `[1, 2]` with a body
that pushes `9` onto the vector on every step still visits exactly
`[1, 2]`. -/
theorem c6_witness :
    (forVector 0 false pushBody demoHeap).visited = demoHeap.obs 0 ∧
    demoHeap.obs 0 = [.num (.fin 1), .num (.fin 2)] :=
  ⟨(c6_vector_iteration_snapshot demoHeap 0 pushBody (fun _ _ => rfl)).1, rfl⟩

/-- C7: `try B catch (id)? C`.  A `Return`/`Break`/`Continue` outcome of
the try block propagates unchanged and the catch block is never
evaluated (the statement's result does not depend on it); an `Error`
outcome runs the catch block in a fresh child scope with the error's
payload bound to `id` when present; normal completion of the try block
completes the statement normally. -/
theorem c7_try_catch (σ : Type)
    (tryBlock catchBlock catchBlock2 : MEnv → σ → σ × Option CF)
    (catchId : Option String) (idName : String) (env : MEnv) (s s1 : σ) :
    (∀ c : CF, tryBlock env s = (s1, some c) → (∀ p, c ≠ .err p) →
      tryEval tryBlock catchId catchBlock env s = (s1, some c) ∧
      tryEval tryBlock catchId catchBlock2 env s
        = tryEval tryBlock catchId catchBlock env s) ∧
    (∀ p : MValue, tryBlock env s = (s1, some (.err p)) →
      tryEval tryBlock (some idName) catchBlock env s
        = catchBlock (env.child.letIn idName p) s1 ∧
      tryEval tryBlock none catchBlock env s = catchBlock env.child s1) ∧
    (tryBlock env s = (s1, none) →
      tryEval tryBlock catchId catchBlock env s = (s1, none)) := by
  refine ⟨?_, ?_, ?_⟩
  · intro c hc hnoterr
    cases c with
    | ret v =>
      unfold tryEval
      rw [hc]
      exact ⟨rfl, rfl⟩
    | brk =>
      unfold tryEval
      rw [hc]
      exact ⟨rfl, rfl⟩
    | cont =>
      unfold tryEval
      rw [hc]
      exact ⟨rfl, rfl⟩
    | err p => exact absurd rfl (hnoterr p)
  · intro p hc
    constructor
    · unfold tryEval
      rw [hc]
    · unfold tryEval
      rw [hc]
  · intro hc
    unfold tryEval
    rw [hc]

/-- Witness for C7 at concrete blocks: a `Return` outcome passes through
with the catch block not run (the state shows only the try block's
bump), and an `Error "boom"` outcome runs the catch block in a child
scope with `e` bound to the payload. -/
theorem c7_witness :
    tryEval retBlock (some "e") probeCatch (MEnv.scope [] none) 0
      = (1, some (.ret .null)) ∧
    tryEval errBlock (some "e") probeCatch (MEnv.scope [] none) 0
      = probeCatch ((MEnv.scope [] none).child.letIn "e" (.str "boom")) 1 := by
  constructor
  · exact ((c7_try_catch ℕ retBlock probeCatch probeCatch (some "e") "e"
      (MEnv.scope [] none) 0 1).1 (.ret .null) rfl (by intro p; simp)).1
  · exact ((c7_try_catch ℕ errBlock probeCatch probeCatch (some "e") "e"
      (MEnv.scope [] none) 0 1).2.1 (.str "boom") rfl).1

/-- C9: metamap immutability.  Any assignment statement targeting a
metamap (`M[k] = v`, `M.k = v`, `M::k = v` all reach the Map store
branch of `AstStatementAssignment.eval`, metamaps being Map subclasses)
yields a runtime error and leaves the metamap's contents unchanged; and
every metamap produced by a `type` expression carries the metamap flag
(as do the per-type metamaps installed at bootstrap, which are built by
the same `MetaMap` constructor). -/
theorem c9_metamap_immutable :
    (∀ (m : MMap) (k v : MValue), m.isMeta = true →
      (assignToMap m k v).1 = m ∧
      (assignToMap m k v).2 = some (.err (.str "attempted to modify metamap"))) ∧
    (∀ (nm : String) (m : MMap), (typeEval nm m).isMeta = true) := by
  constructor
  · intro m k v hm
    unfold assignToMap MMap.setItem
    rw [if_pos hm]
    exact ⟨rfl, rfl⟩
  · intro nm m
    rfl

/-- Witness for C9 at a concrete metamap: writing key `"f"` errors and
leaves the contents untouched. -/
theorem c9_witness :
    (assignToMap demoMeta (.str "f") (.num (.fin 1))).1 = demoMeta ∧
    (assignToMap demoMeta (.str "f") (.num (.fin 1))).2
      = some (.err (.str "attempted to modify metamap")) :=
  c9_metamap_immutable.1 demoMeta (.str "f") (.num (.fin 1)) rfl

/-- C4: the claim fails on the code and the code is the slip.
`1e20` is exactly representable (`5^20 < 2^53`) and CPython's shortest
repr for it is `"1e+20"`; `Number.__str__`'s trailing-zero trim
(commented "Remove trailing zeros", src/mf.py:282) also eats the zeros
of the *exponent*, printing `"1e+2"`, which denotes 100, not `1e20` —
so the printed string does not read back to the same double as the
claim (and the spec's "while still denoting exactly x") requires.  The
IEEE specials do print as `NaN`/`Inf`/`-Inf`. -/
theorem c4_number_str_roundtrip_bug :
    numberStr (.fin ((10 ^ 20 : ℕ) : ℚ)) "1e+20" = "1e+2" ∧
    sciValue "1e+20" = some ((10 ^ 20 : ℕ) : ℚ) ∧
    sciValue "1e+2" = some ((100 : ℕ) : ℚ) ∧
    ((100 : ℕ) : ℚ) ≠ ((10 ^ 20 : ℕ) : ℚ) ∧
    numberStr .nan "nan" = "NaN" ∧
    numberStr .inf "inf" = "Inf" ∧
    numberStr .ninf "-inf" = "-Inf" := by
  exact ⟨by decide, by decide, by decide, by decide, rfl, rfl, rfl⟩

end Mellifera
